import Mathlib

/-!
Verification development for the AIS forwarder daemon
(src/ais_forwarder.cpp).  Bytes are modelled as natural numbers
(0..255), byte strings as `List Nat`.  The carriage-return and
line-feed bytes are 13 and 10.
-/

namespace AisForwarder

/-- Model of appending a received chunk to the pending buffer.
The source stores the chunk via `buffer[bytes_received] = 0;
leftover += std::string(buffer);` (ais_forwarder.cpp:531-532), and the
`std::string(const char*)` constructor stops at the first NUL byte, so
the bytes of the chunk from the first 0 onwards are dropped. -/
def truncAtNul : List Nat → List Nat
  | [] => []
  | b :: rest => if b = 0 then [] else b :: truncAtNul rest

/-- Index of the first occurrence of the two-byte delimiter CR LF
(13, 10) in a byte string; `none` when there is no occurrence.  Models
`leftover.find("\x5cr\x5cn")` in ais_forwarder.cpp:537. -/
def findCRLF : List Nat → Option Nat
  | [] => none
  | [_] => none
  | x :: y :: rest =>
      if x = 13 ∧ y = 10 then some 0
      else (findCRLF (y :: rest)).map (· + 1)

/-- The extraction loop of ais_forwarder.cpp:535-549, fuel-indexed so
that it is structurally recursive: repeatedly find the first CR LF,
emit everything before it as a candidate line, and continue on
everything after it.  With fuel at least the length of the buffer the
fuel never runs out (each step removes at least two bytes). -/
def extractLinesF : Nat → List Nat → List (List Nat) × List Nat
  | 0, s => ([], s)
  | f + 1, s =>
      match findCRLF s with
      | none => ([], s)
      | some p =>
          let t := extractLinesF f (s.drop (p + 2))
          (s.take p :: t.1, t.2)

/-- Extract all complete CR-LF-delimited lines from a buffer, returning
the ordered list of candidate lines and the remaining (incomplete)
buffer.  This is the `while ((pos = leftover.find(delimiter)) != npos)`
loop of ais_forwarder.cpp:537-549. -/
def extractLines (s : List Nat) : List (List Nat) × List Nat :=
  extractLinesF s.length s

theorem findCRLF_some_bound {s : List Nat} {p : Nat}
    (h : findCRLF s = some p) : p + 2 ≤ s.length := by
  induction s generalizing p with
  | nil => simp [findCRLF] at h
  | cons x rest ih =>
    match rest with
    | [] => simp [findCRLF] at h
    | y :: rest' =>
      rw [findCRLF] at h
      by_cases hxy : x = 13 ∧ y = 10
      · simp only [if_pos hxy, Option.some.injEq] at h
        simp only [List.length_cons]
        omega
      · simp only [if_neg hxy, Option.map_eq_some'] at h
        obtain ⟨q, hq, hpq⟩ := h
        have hqb := ih hq
        simp only [List.length_cons] at hqb ⊢
        omega

theorem extractLinesF_succ_none {f : Nat} {s : List Nat}
    (h : findCRLF s = none) : extractLinesF (f + 1) s = ([], s) := by
  rw [extractLinesF, h]

theorem extractLinesF_succ_some {f : Nat} {s : List Nat} {p : Nat}
    (h : findCRLF s = some p) :
    extractLinesF (f + 1) s =
      (s.take p :: (extractLinesF f (s.drop (p + 2))).1,
       (extractLinesF f (s.drop (p + 2))).2) := by
  rw [extractLinesF, h]

theorem extractLinesF_congr :
    ∀ (f₁ f₂ : Nat) (s : List Nat), s.length ≤ f₁ → s.length ≤ f₂ →
      extractLinesF f₁ s = extractLinesF f₂ s := by
  intro f₁
  induction f₁ with
  | zero =>
    intro f₂ s h1 _
    have hs : s = [] := List.length_eq_zero.mp (Nat.le_zero.mp h1)
    subst hs
    cases f₂ with
    | zero => rfl
    | succ f => simp [extractLinesF, findCRLF]
  | succ f ih =>
    intro f₂ s h1 h2
    cases f₂ with
    | zero =>
      have hs : s = [] := List.length_eq_zero.mp (Nat.le_zero.mp h2)
      subst hs
      simp [extractLinesF, findCRLF]
    | succ g =>
      cases hfind : findCRLF s with
      | none => rw [extractLinesF_succ_none hfind, extractLinesF_succ_none hfind]
      | some p =>
        have hb := findCRLF_some_bound hfind
        have hd : (s.drop (p + 2)).length ≤ f := by
          simp only [List.length_drop]; omega
        have hd' : (s.drop (p + 2)).length ≤ g := by
          simp only [List.length_drop]; omega
        rw [extractLinesF_succ_some hfind, extractLinesF_succ_some hfind,
          ih g (s.drop (p + 2)) hd hd']

theorem extractLines_none {s : List Nat} (h : findCRLF s = none) :
    extractLines s = ([], s) := by
  rw [extractLines]
  cases hl : s.length with
  | zero => simp [extractLinesF]
  | succ n => exact extractLinesF_succ_none h

theorem extractLines_some {s : List Nat} {p : Nat}
    (h : findCRLF s = some p) :
    extractLines s =
      (s.take p :: (extractLines (s.drop (p + 2))).1,
       (extractLines (s.drop (p + 2))).2) := by
  have hb := findCRLF_some_bound h
  rw [extractLines]
  cases hl : s.length with
  | zero => omega
  | succ n =>
    rw [extractLinesF_succ_some h]
    have hd : (s.drop (p + 2)).length ≤ n := by
      simp only [List.length_drop]; omega
    rw [extractLines,
      extractLinesF_congr n (s.drop (p + 2)).length (s.drop (p + 2)) hd
        (Nat.le_refl _)]

/-- The buffer left behind by the extraction loop contains no CR LF
occurrence: the loop only stops when `find` fails. -/
theorem findCRLF_extractLines_leftover :
    ∀ (f : Nat) (s : List Nat), s.length ≤ f →
      findCRLF (extractLines s).2 = none := by
  intro f
  induction f with
  | zero =>
    intro s h1
    have hs : s = [] := List.length_eq_zero.mp (Nat.le_zero.mp h1)
    subst hs
    rfl
  | succ f ih =>
    intro s h1
    cases hfind : findCRLF s with
    | none => rw [extractLines_none hfind]; exact hfind
    | some p =>
      have hb := findCRLF_some_bound hfind
      rw [extractLines_some hfind]
      exact ih (s.drop (p + 2)) (by simp only [List.length_drop]; omega)

theorem leftover_no_crlf (s : List Nat) :
    findCRLF (extractLines s).2 = none :=
  findCRLF_extractLines_leftover s.length s (Nat.le_refl _)

/-- The first CR LF occurrence in `a` is also the first one in
`a ++ b`: a spanning occurrence would have to start strictly later. -/
theorem findCRLF_append_some {a : List Nat} {p : Nat} (b : List Nat)
    (h : findCRLF a = some p) : findCRLF (a ++ b) = some p := by
  induction a generalizing p with
  | nil => simp [findCRLF] at h
  | cons x rest ih =>
    match rest with
    | [] => simp [findCRLF] at h
    | y :: rest' =>
      rw [findCRLF] at h
      rw [List.cons_append, List.cons_append, findCRLF]
      by_cases hxy : x = 13 ∧ y = 10
      · simp only [if_pos hxy] at h ⊢
        exact h
      · simp only [if_neg hxy, Option.map_eq_some'] at h
        obtain ⟨q, hq, hpq⟩ := h
        have := ih hq
        rw [List.cons_append] at this
        simp only [if_neg hxy, this, Option.map_some']
        rw [hpq]

/-- Composition of the extraction loop over a concatenation: first
extract everything from `a`, then continue on the leftover of `a`
followed by `b`. -/
theorem extractLines_append :
    ∀ (f : Nat) (a b : List Nat), a.length ≤ f →
      extractLines (a ++ b) =
        ((extractLines a).1 ++ (extractLines ((extractLines a).2 ++ b)).1,
         (extractLines ((extractLines a).2 ++ b)).2) := by
  intro f
  induction f with
  | zero =>
    intro a b h1
    have ha : a = [] := List.length_eq_zero.mp (Nat.le_zero.mp h1)
    subst ha
    rfl
  | succ f ih =>
    intro a b h1
    cases hfind : findCRLF a with
    | none =>
      rw [extractLines_none hfind]
      simp
    | some p =>
      have hb := findCRLF_some_bound hfind
      have hfab : findCRLF (a ++ b) = some p := findCRLF_append_some b hfind
      rw [extractLines_some hfab, extractLines_some hfind]
      have htake : (a ++ b).take p = a.take p :=
        List.take_append_of_le_length (by omega)
      have hdrop : (a ++ b).drop (p + 2) = a.drop (p + 2) ++ b :=
        List.drop_append_of_le_length (by omega)
      have hlen : (a.drop (p + 2)).length ≤ f := by
        simp only [List.length_drop]; omega
      rw [htake, hdrop, ih (a.drop (p + 2)) b hlen]
      simp

/-- The per-iteration body of the data-processing path of the main
loop (ais_forwarder.cpp:530-549), iterated over a list of received
chunks starting from pending buffer `lo`: each chunk is appended to
the buffer (truncated at its first NUL by the `std::string`
conversion) and all complete lines are extracted.  Returns the ordered
list of all candidate lines produced and the final pending buffer. -/
def runChunks (lo : List Nat) : List (List Nat) → List (List Nat) × List Nat
  | [] => ([], lo)
  | c :: cs =>
      let t := extractLines (lo ++ truncAtNul c)
      let u := runChunks t.2 cs
      (t.1 ++ u.1, u.2)

/-- The ordered list of complete lines produced by feeding the chunks
one after the other into an initially empty pending buffer. -/
def linesOfChunks (cs : List (List Nat)) : List (List Nat) :=
  (runChunks [] cs).1

theorem truncAtNul_of_not_mem {c : List Nat} (h : 0 ∉ c) :
    truncAtNul c = c := by
  induction c with
  | nil => rfl
  | cons b rest ih =>
    rw [truncAtNul]
    rw [List.mem_cons, not_or] at h
    rw [if_neg (fun hb => h.1 hb.symm), ih h.2]

theorem runChunks_join :
    ∀ (cs : List (List Nat)) (lo : List Nat), findCRLF lo = none →
      (∀ c ∈ cs, 0 ∉ c) →
      runChunks lo cs =
        ((extractLines (lo ++ cs.flatten)).1, (extractLines (lo ++ cs.flatten)).2) := by
  intro cs
  induction cs with
  | nil =>
    intro lo hlo _
    rw [runChunks]
    simp only [List.flatten_nil, List.append_nil]
    rw [extractLines_none hlo]
  | cons c cs ih =>
    intro lo hlo hnul
    have hc : truncAtNul c = c :=
      truncAtNul_of_not_mem (hnul c (List.mem_cons_self c cs))
    have hcs : ∀ c' ∈ cs, 0 ∉ c' := fun c' hc' =>
      hnul c' (List.mem_cons_of_mem c hc')
    rw [runChunks]
    simp only [hc]
    rw [ih (extractLines (lo ++ c)).2 (leftover_no_crlf (lo ++ c)) hcs]
    have hassoc : lo ++ (c :: cs).flatten = (lo ++ c) ++ cs.flatten := by
      simp [List.flatten]
    rw [hassoc,
      extractLines_append (lo ++ c).length (lo ++ c) cs.flatten (Nat.le_refl _)]

/-- C1 (counterexample): the claim fails as stated.  The byte stream
65, 0, 66, 13, 10 fed as a single chunk yields no complete line (the
`std::string(const char*)` conversion truncates the chunk at the NUL
byte, so the CR LF never reaches the pending buffer), while feeding it
as the two chunks [65, 0] and [66, 13, 10] yields the line [65, 66].
So chunking changes the ordered list of complete lines. -/
theorem chunking_invariance_cex :
    ([[65, 0], [66, 13, 10]] : List (List Nat)).flatten = [65, 0, 66, 13, 10] ∧
    linesOfChunks [[65, 0], [66, 13, 10]] ≠ linesOfChunks [[65, 0, 66, 13, 10]] := by
  decide

/-- C1 (amended): for every way of splitting a byte stream into
consecutive chunks, provided no chunk contains a NUL byte (the code
truncates each received chunk at its first NUL byte when converting it
through `std::string`), feeding the chunks sequentially yields the same
ordered list of complete CR-LF-delimited lines as feeding the whole
stream in a single chunk. -/
theorem chunking_invariance (cs : List (List Nat)) (h : ∀ c ∈ cs, 0 ∉ c) :
    linesOfChunks cs = linesOfChunks [cs.flatten] := by
  have hflat : 0 ∉ cs.flatten := by
    intro hm
    rw [List.mem_flatten] at hm
    obtain ⟨c, hc, h0⟩ := hm
    exact h c hc h0
  rw [linesOfChunks, linesOfChunks, runChunks_join cs [] rfl h]
  rw [runChunks]
  simp only [truncAtNul_of_not_mem hflat, List.nil_append]
  rw [runChunks]
  simp

theorem chunking_invariance_witness :
    (∀ c ∈ ([[33, 65], [13, 10]] : List (List Nat)), 0 ∉ c) ∧
    linesOfChunks [[33, 65], [13, 10]]
      = linesOfChunks [([[33, 65], [13, 10]] : List (List Nat)).flatten] :=
  ⟨by decide, chunking_invariance [[33, 65], [13, 10]] (by decide)⟩

/-- The bytes of the marker "!AIVDM" ('!' = 33, 'A' = 65, 'I' = 73,
'V' = 86, 'D' = 68, 'M' = 77). -/
def bangAIVDM : List Nat := [33, 65, 73, 86, 68, 77]

/-- The bytes of the marker "!AIVDO" ('O' = 79). -/
def bangAIVDO : List Nat := [33, 65, 73, 86, 68, 79]

/-- Byte-wise anchored-at-zero test: does `l` begin with `p`?  Models
`str.rfind(marker, 0) == 0` in ais_forwarder.cpp:545 — an rfind with
search position 0 can only match at position zero, so the comparison
with 0 is exactly a case-sensitive anchored marker test. -/
def startsWithBytes : List Nat → List Nat → Bool
  | [], _ => true
  | _ :: _, [] => false
  | p :: ps, x :: xs => p == x && startsWithBytes ps xs

/-- The message filter of ais_forwarder.cpp:545: a candidate line
passes iff it begins with "!AIVDM" or "!AIVDO". -/
def acceptsLine (l : List Nat) : Bool :=
  startsWithBytes bangAIVDM l || startsWithBytes bangAIVDO l

/-- One iteration of the data-processing path (ais_forwarder.cpp
lines 530-549): append the (NUL-truncated) chunk to the pending
buffer, extract all complete lines, and send exactly the lines passing
the filter as datagrams.  Returns (extracted candidate lines,
datagrams sent in order, new pending buffer). -/
def processData (lo chunk : List Nat) :
    List (List Nat) × List (List Nat) × List Nat :=
  let t := extractLines (lo ++ truncAtNul chunk)
  (t.1, t.1.filter acceptsLine, t.2)

theorem startsWithBytes_iff (p l : List Nat) :
    startsWithBytes p l = true ↔ ∃ r, l = p ++ r := by
  induction p generalizing l with
  | nil =>
    simp only [startsWithBytes, List.nil_append, true_iff]
    exact ⟨l, rfl⟩
  | cons a ps ih =>
    cases l with
    | nil =>
      constructor
      · intro h
        exact Bool.noConfusion h
      · rintro ⟨r, hr⟩
        simp at hr
    | cons x xs =>
      rw [startsWithBytes, Bool.and_eq_true, beq_iff_eq]
      constructor
      · rintro ⟨hax, hsw⟩
        obtain ⟨r, hr⟩ := (ih xs).mp hsw
        subst hax
        exact ⟨r, by rw [hr, List.cons_append]⟩
      · rintro ⟨r, hr⟩
        rw [List.cons_append] at hr
        injection hr with h1 h2
        exact ⟨h1.symm, (ih xs).mpr ⟨r, h2⟩⟩

/-- C4: for every extracted candidate line, a datagram is sent iff the
line begins (exact, case-sensitive, anchored at position zero) with
"!AIVDM" or "!AIVDO"; lines not matching produce no datagram (and no
error: the filter silently drops them). -/
theorem filter_correct (lo chunk : List Nat) :
    (∀ l, l ∈ (processData lo chunk).2.1 ↔
        l ∈ (processData lo chunk).1 ∧ acceptsLine l = true) ∧
    (∀ l, acceptsLine l = true ↔
        ((∃ r, l = bangAIVDM ++ r) ∨ (∃ r, l = bangAIVDO ++ r))) := by
  constructor
  · intro l
    exact List.mem_filter
  · intro l
    rw [acceptsLine, Bool.or_eq_true, startsWithBytes_iff, startsWithBytes_iff]

/-- When the buffer below a CR LF contains no CR LF of its own, the
extraction loop takes it as the next candidate line and continues past
the delimiter. -/
theorem findCRLF_none_append_crlf {pre : List Nat} (t : List Nat)
    (h : findCRLF pre = none) :
    findCRLF (pre ++ 13 :: 10 :: t) = some pre.length := by
  induction pre with
  | nil =>
    rw [List.nil_append, findCRLF]
    simp
  | cons x pre' ih =>
    cases pre' with
    | nil =>
      rw [List.cons_append, List.nil_append, findCRLF]
      have hno : ¬(x = 13 ∧ (13 : Nat) = 10) := fun hc => by omega
      rw [if_neg hno]
      rw [show findCRLF (13 :: 10 :: t) = some 0 from rfl]
      rfl
    | cons y pre'' =>
      rw [findCRLF] at h
      by_cases hxy : x = 13 ∧ y = 10
      · rw [if_pos hxy] at h
        cases h
      · rw [if_neg hxy] at h
        have hy : findCRLF (y :: pre'') = none := by
          cases hfy : findCRLF (y :: pre'') with
          | none => rfl
          | some q => rw [hfy] at h; simp at h
        have hih := ih hy
        rw [List.cons_append, List.cons_append, findCRLF]
        rw [List.cons_append] at hih
        rw [if_neg hxy, hih]
        rfl

theorem extractLines_pre_crlf {pre : List Nat} (t : List Nat)
    (h : findCRLF pre = none) :
    extractLines (pre ++ 13 :: 10 :: t)
      = (pre :: (extractLines t).1, (extractLines t).2) := by
  rw [extractLines_some (findCRLF_none_append_crlf t h)]
  have htake : (pre ++ 13 :: 10 :: t).take pre.length = pre := by
    rw [List.take_append_of_le_length (Nat.le_refl _), List.take_length]
  have hdrop : (pre ++ 13 :: 10 :: t).drop (pre.length + 2) = t := by
    rw [List.drop_append]
    rfl
  rw [htake, hdrop]

/-- C10: when the pending buffer holds two consecutive CR LF
delimiters after some delimiter-free bytes `pre`, extraction yields
the candidate `pre`, then the empty candidate line, then continues on
the rest of the buffer; the empty line fails the filter and produces
no datagram, and no subsequent line is lost. -/
theorem empty_line_dropped (pre t : List Nat) (h : findCRLF pre = none) :
    (extractLines (pre ++ 13 :: 10 :: 13 :: 10 :: t)).1
        = pre :: [] :: (extractLines t).1 ∧
    (extractLines (pre ++ 13 :: 10 :: 13 :: 10 :: t)).2 = (extractLines t).2 ∧
    acceptsLine [] = false ∧
    ∀ ls : List (List Nat),
      (([] : List Nat) :: ls).filter acceptsLine = ls.filter acceptsLine := by
  have h1 := extractLines_pre_crlf (13 :: 10 :: t) h
  have h2 := @extractLines_pre_crlf [] t rfl
  rw [List.nil_append] at h2
  refine ⟨?_, ?_, rfl, fun ls => rfl⟩
  · rw [h1, h2]
  · rw [h1, h2]

theorem empty_line_dropped_witness :
    (extractLines ([33] ++ 13 :: 10 :: 13 :: 10 :: [65, 13, 10])).1
      = [33] :: [] :: (extractLines [65, 13, 10]).1 :=
  (empty_line_dropped [33] [65, 13, 10] (by decide)).1

/-- The human-facing notification kinds emitted by the supervisor loop
in main: "AIS Forwarder Started" (ais_forwarder.cpp:414),
"AIS Connection Restored" (line 411), the mid-session loss reports
"AIS Connection Lost" / "AIS Connection Error" / "AIS Connection
Closed" (lines 450, 480, 504, 521 — all loss notifications of one
disconnection episode), and "AIS Connection Failed" (line 425). -/
inductive Notif
  | started
  | restored
  | lost
  | failed
deriving DecidableEq

/-- The events that drive one iteration of the supervisor loop of
main (ais_forwarder.cpp:398-550): the outcome of a connect attempt,
the outcome of the periodic health check, the outcome of the
select() wait, and the outcome of a read. -/
inductive SupEvent
  | connectOk
  | connectFail
  | healthFail
  | selectErr
  | selectTimeout
  | readErr
  | readZero
  | dataChunk (bytes : List Nat)
deriving DecidableEq

/-- The mutable state of the supervisor loop: `connected` models
`ais_sock != -1`, `wasConnected` models `was_connected`,
`lostNotified` models `connection_lost_notified`, and `leftover`
models the pending buffer `leftover` (ais_forwarder.cpp:393-396). -/
structure SupState where
  connected : Bool
  wasConnected : Bool
  lostNotified : Bool
  leftover : List Nat
deriving DecidableEq

/-- The state at the top of the main loop: no socket, never connected,
no loss notified, empty pending buffer (ais_forwarder.cpp:393-396). -/
def initState : SupState := ⟨false, false, false, []⟩

/-- The common teardown path of the four mid-session failure branches
(ais_forwarder.cpp:442-457, 472-486, 496-511, 513-528): emit a loss
notification only if none was emitted yet this episode, set the flag,
close the socket. -/
def teardown (s : SupState) : SupState × Option Notif :=
  ({ s with connected := false, lostNotified := true },
   if s.lostNotified then none else some Notif.lost)

/-- One supervisor-loop step (ais_forwarder.cpp:398-550).  Events that
cannot occur in the current state (a connect outcome while connected, a
session event while disconnected) leave the state unchanged and emit
nothing; the real loop never generates them in those states. -/
def stepSup (s : SupState) : SupEvent → SupState × Option Notif
  | .connectOk =>
      if s.connected then (s, none)
      else
        (⟨true, true, false, []⟩,
         some (if s.wasConnected || s.lostNotified then Notif.restored
               else Notif.started))
  | .connectFail =>
      if s.connected then (s, none)
      else if s.wasConnected && !s.lostNotified then
        ({ s with lostNotified := true }, some Notif.failed)
      else (s, none)
  | .healthFail => if s.connected then teardown s else (s, none)
  | .selectErr => if s.connected then teardown s else (s, none)
  | .selectTimeout => (s, none)
  | .readErr => if s.connected then teardown s else (s, none)
  | .readZero => if s.connected then teardown s else (s, none)
  | .dataChunk b =>
      if s.connected then
        ({ s with leftover := (extractLines (s.leftover ++ truncAtNul b)).2 },
         none)
      else (s, none)

/-- Run the supervisor over a list of events, collecting the emitted
notifications in order. -/
def runSup : SupState → List SupEvent → SupState × List Notif
  | s, [] => (s, [])
  | s, e :: es =>
      let t := stepSup s e
      let u := runSup t.1 es
      (u.1, t.2.toList ++ u.2)

/-- The state invariant of the supervisor loop: while connected no loss
is pending and the first connect has happened; while disconnected after
having been connected, the loss has already been notified; before the
first connect no loss was ever notified. -/
def Inv (s : SupState) : Prop :=
  (s.connected = true → s.lostNotified = false ∧ s.wasConnected = true) ∧
  (s.connected = false → s.wasConnected = true → s.lostNotified = true) ∧
  (s.wasConnected = false → s.lostNotified = false)

theorem init_inv : Inv initState := by
  refine ⟨fun h => ?_, fun _ h => ?_, fun _ => rfl⟩ <;> exact Bool.noConfusion h

theorem stepSup_inv : ∀ (s : SupState) (e : SupEvent), Inv s → Inv (stepSup s e).1 := by
  rintro ⟨c, w, l, lo⟩ e h
  cases c <;> cases w <;> cases l <;> cases e <;>
    simp_all [stepSup, teardown, Inv]

theorem runSup_inv : ∀ (es : List SupEvent) (s : SupState), Inv s →
    Inv (runSup s es).1 := by
  intro es
  induction es with
  | nil => intro s h; exact h
  | cons e es ih =>
    intro s h
    exact ih (stepSup s e).1 (stepSup_inv s e h)

/-- C6: in every reachable state of the supervisor loop the pending
buffer contains no complete CR-LF-terminated line (complete lines are
always extracted immediately), and a successful connect from the
disconnected state clears the pending buffer
(`leftover.clear()`, ais_forwarder.cpp:419). -/
theorem pending_buffer_invariant (es : List SupEvent) :
    findCRLF ((runSup initState es).1.leftover) = none ∧
    ∀ s : SupState, s.connected = false →
      (stepSup s SupEvent.connectOk).1.leftover = [] := by
  constructor
  · have step : ∀ (s : SupState) (e : SupEvent),
        findCRLF s.leftover = none → findCRLF ((stepSup s e).1.leftover) = none := by
      intro s e h
      cases e with
      | connectOk =>
        by_cases hc : s.connected <;> simp [stepSup, hc, h, findCRLF]
      | connectFail =>
        by_cases hc : s.connected
        · simpa [stepSup, hc] using h
        · by_cases hw : s.wasConnected && !s.lostNotified <;>
            simpa [stepSup, hc, hw] using h
      | healthFail =>
        by_cases hc : s.connected <;> simpa [stepSup, teardown, hc] using h
      | selectErr =>
        by_cases hc : s.connected <;> simpa [stepSup, teardown, hc] using h
      | selectTimeout => simpa [stepSup] using h
      | readErr =>
        by_cases hc : s.connected <;> simpa [stepSup, teardown, hc] using h
      | readZero =>
        by_cases hc : s.connected <;> simpa [stepSup, teardown, hc] using h
      | dataChunk b =>
        by_cases hc : s.connected
        · simp [stepSup, hc, leftover_no_crlf]
        · simpa [stepSup, hc] using h
    have run : ∀ (es' : List SupEvent) (s : SupState),
        findCRLF s.leftover = none →
        findCRLF ((runSup s es').1.leftover) = none := by
      intro es'
      induction es' with
      | nil => intro s h; exact h
      | cons e es' ih => intro s h; exact ih (stepSup s e).1 (step s e h)
    exact run es initState rfl
  · intro s hs
    simp [stepSup, hs]

theorem pending_buffer_invariant_witness :
    (stepSup initState SupEvent.connectOk).1.leftover = [] :=
  (pending_buffer_invariant []).2 initState rfl

/-- The select() timeout of the read wait (2 seconds,
ais_forwarder.cpp:467). -/
def select_timeout_sec : Nat := 2

/-- The health-check cadence (5 seconds, ais_forwarder.cpp:436). -/
def health_check_interval_sec : Nat := 5

/-- C8: a select() timeout while connected is a non-error: the state
(connection flag, notification flags, pending buffer) is unchanged, no
notification is emitted, and the loop continues (back to the liveness
check); and the read-wait timeout is strictly shorter than the
liveness cadence. -/
theorem select_timeout_noop (s : SupState) (_hc : s.connected = true) :
    stepSup s SupEvent.selectTimeout = (s, none) ∧
    select_timeout_sec < health_check_interval_sec :=
  ⟨rfl, by decide⟩

theorem select_timeout_noop_witness :
    stepSup ⟨true, true, false, [33]⟩ SupEvent.selectTimeout
      = (⟨true, true, false, [33]⟩, none) :=
  (select_timeout_noop ⟨true, true, false, [33]⟩ rfl).1

/-- C9: in every reachable disconnected state with `was_connected`
true, `connection_lost_notified` is true, so a successful connect in
such a state always takes the "Restored" branch
(ais_forwarder.cpp:410-411): the defensive "successful connect with no
loss pending" case is unreachable. -/
theorem no_loss_pending_unreachable (es : List SupEvent)
    (h1 : (runSup initState es).1.connected = false)
    (h2 : (runSup initState es).1.wasConnected = true) :
    (runSup initState es).1.lostNotified = true ∧
    (stepSup (runSup initState es).1 SupEvent.connectOk).2
      = some Notif.restored := by
  have hinv := runSup_inv es initState init_inv
  have hl := hinv.2.1 h1 h2
  refine ⟨hl, ?_⟩
  simp [stepSup, h1, h2, hl]

theorem no_loss_pending_unreachable_witness :
    (runSup initState [SupEvent.connectOk, SupEvent.readZero]).1.lostNotified
      = true :=
  (no_loss_pending_unreachable [SupEvent.connectOk, SupEvent.readZero]
    (by decide) (by decide)).1

theorem connectFail_silent_run (s : SupState) (hcf : s.connected = false)
    (hl : s.lostNotified = true) :
    ∀ n : Nat, runSup s (List.replicate n SupEvent.connectFail) = (s, []) := by
  intro n
  induction n with
  | zero => rfl
  | succ n ih =>
    have hstep : stepSup s SupEvent.connectFail = (s, none) := by
      simp [stepSup, hcf, hl]
    simp [List.replicate_succ, runSup, hstep, ih]

/-- C5: from any reachable connected state, each of the four
mid-session failure events (health-check failure, select() error, read
returning zero, read error) tears the connection down (DISCONNECTED),
emits the loss notification exactly once, sets the dedup flag, and any
number of subsequent connect failures in the same episode emit
nothing. -/
theorem midsession_teardown (es : List SupEvent) (e : SupEvent)
    (he : e = SupEvent.healthFail ∨ e = SupEvent.selectErr ∨
          e = SupEvent.readZero ∨ e = SupEvent.readErr)
    (hc : (runSup initState es).1.connected = true) :
    (stepSup (runSup initState es).1 e).1.connected = false ∧
    (stepSup (runSup initState es).1 e).2 = some Notif.lost ∧
    (stepSup (runSup initState es).1 e).1.lostNotified = true ∧
    ∀ n : Nat,
      runSup (stepSup (runSup initState es).1 e).1
          (List.replicate n SupEvent.connectFail)
        = ((stepSup (runSup initState es).1 e).1, []) := by
  have hinv := runSup_inv es initState init_inv
  have hflag : (runSup initState es).1.lostNotified = false :=
    (hinv.1 hc).1
  have hstep : stepSup (runSup initState es).1 e
      = ({ (runSup initState es).1 with connected := false, lostNotified := true },
         some Notif.lost) := by
    rcases he with rfl | rfl | rfl | rfl <;>
      simp [stepSup, teardown, hc, hflag]
  rw [hstep]
  refine ⟨rfl, rfl, rfl, ?_⟩
  exact connectFail_silent_run _ rfl rfl

theorem midsession_teardown_witness :
    (stepSup (runSup initState [SupEvent.connectOk]).1 SupEvent.healthFail).2
      = some Notif.lost :=
  (midsession_teardown [SupEvent.connectOk] SupEvent.healthFail
    (Or.inl rfl) (by decide)).2.1

/-- Classify a notification: `started`/`restored` open a connected
episode, `lost`/`failed` close one. -/
def isUp : Notif → Bool
  | .started => true
  | .restored => true
  | .lost => false
  | .failed => false

theorem runSup_cons (s : SupState) (e : SupEvent) (es : List SupEvent) :
    runSup s (e :: es)
      = ((runSup (stepSup s e).1 es).1,
         (stepSup s e).2.toList ++ (runSup (stepSup s e).1 es).2) := rfl

/-- The shape of the notification stream produced from a state
satisfying the invariant: notifications strictly alternate between up
events (started/restored) and down events (lost/failed); the first
notification emitted from a connected state is a down event, from a
disconnected previously-connected state an up event, and from a
never-connected state it is `started`; and `started` is emitted
exactly once, at the first successful connect. -/
def NShape (s : SupState) (es : List SupEvent) : Prop :=
  List.Chain' (fun a b => isUp a ≠ isUp b) (runSup s es).2 ∧
  (s.wasConnected = true → s.connected = true →
    ∀ h, ((runSup s es).2).head? = some h → isUp h = false) ∧
  (s.wasConnected = true → s.connected = false →
    ∀ h, ((runSup s es).2).head? = some h → isUp h = true) ∧
  (s.wasConnected = false →
    ∀ h, ((runSup s es).2).head? = some h → h = Notif.started) ∧
  ((runSup s es).2.count Notif.started
    = if s.wasConnected = true then 0
      else if SupEvent.connectOk ∈ es then 1 else 0)

theorem nshape_cons_of_silent {s : SupState} {e : SupEvent} {es : List SupEvent}
    (h2 : (stepSup s e).2 = none)
    (hw : (stepSup s e).1.wasConnected = s.wasConnected)
    (hc : (stepSup s e).1.connected = s.connected)
    (hcnt : (if s.wasConnected = true then (0 : Nat)
             else if SupEvent.connectOk ∈ e :: es then 1 else 0)
          = (if s.wasConnected = true then 0
             else if SupEvent.connectOk ∈ es then 1 else 0))
    (hn : NShape (stepSup s e).1 es) :
    NShape s (e :: es) := by
  obtain ⟨n1, n2, n3, n4, n5⟩ := hn
  have hout : (runSup s (e :: es)).2 = (runSup (stepSup s e).1 es).2 := by
    rw [runSup_cons, h2]
    rfl
  refine ⟨?_, ?_, ?_, ?_, ?_⟩
  · rw [hout]; exact n1
  · intro hwt hct h hh
    rw [hout] at hh
    exact n2 (hw.trans hwt) (hc.trans hct) h hh
  · intro hwt hct h hh
    rw [hout] at hh
    exact n3 (hw.trans hwt) (hc.trans hct) h hh
  · intro hwt h hh
    rw [hout] at hh
    exact n4 (hw.trans hwt) h hh
  · rw [hout, n5, hw]
    exact hcnt.symm

theorem nshape_cons_of_emit {s : SupState} {e : SupEvent} {es : List SupEvent}
    {v : Notif}
    (h2 : (stepSup s e).2 = some v)
    (hhead : ∀ h, ((runSup (stepSup s e).1 es).2).head? = some h →
      isUp h ≠ isUp v)
    (hchain : List.Chain' (fun a b => isUp a ≠ isUp b)
      (runSup (stepSup s e).1 es).2)
    (hup2 : s.wasConnected = true → s.connected = true → isUp v = false)
    (hup3 : s.wasConnected = true → s.connected = false → isUp v = true)
    (hup4 : s.wasConnected = false → v = Notif.started)
    (hcnt : (v :: (runSup (stepSup s e).1 es).2).count Notif.started
          = if s.wasConnected = true then 0
            else if SupEvent.connectOk ∈ e :: es then 1 else 0) :
    NShape s (e :: es) := by
  have hout : (runSup s (e :: es)).2
      = v :: (runSup (stepSup s e).1 es).2 := by
    rw [runSup_cons, h2]
    rfl
  refine ⟨?_, ?_, ?_, ?_, ?_⟩
  · rw [hout, List.chain'_cons']
    exact ⟨fun h hh => (hhead h (Option.mem_def.mp hh)).symm, hchain⟩
  · intro hwt hct h hh
    rw [hout] at hh
    simp only [List.head?_cons, Option.some.injEq] at hh
    subst hh
    exact hup2 hwt hct
  · intro hwt hct h hh
    rw [hout] at hh
    simp only [List.head?_cons, Option.some.injEq] at hh
    subst hh
    exact hup3 hwt hct
  · intro hwt h hh
    rw [hout] at hh
    simp only [List.head?_cons, Option.some.injEq] at hh
    subst hh
    exact hup4 hwt
  · rw [hout]
    exact hcnt

theorem nshape_cons_teardown {s : SupState} {e : SupEvent} {es : List SupEvent}
    (hse : stepSup s e = if s.connected then teardown s else (s, none))
    (hne : (SupEvent.connectOk ∈ e :: es) ↔ (SupEvent.connectOk ∈ es))
    (hInv : Inv s)
    (hn : NShape (stepSup s e).1 es) : NShape s (e :: es) := by
  obtain ⟨i1, i2, i3⟩ := hInv
  obtain ⟨n1, n2, n3, n4, n5⟩ := hn
  by_cases hc : s.connected = true
  · have hl : s.lostNotified = false := (i1 hc).1
    have hw : s.wasConnected = true := (i1 hc).2
    have hstep1 : (stepSup s e).1
        = { s with connected := false, lostNotified := true } := by
      rw [hse, if_pos hc, teardown]
    have hstep2 : (stepSup s e).2 = some Notif.lost := by
      rw [hse, if_pos hc, teardown]
      simp [hl]
    have ht1w : (stepSup s e).1.wasConnected = true := by
      rw [hstep1]; exact hw
    have ht1c : (stepSup s e).1.connected = false := by
      rw [hstep1]
    refine nshape_cons_of_emit hstep2 ?_ n1 ?_ ?_ ?_ ?_
    · intro h hh
      have hup := n3 ht1w ht1c h hh
      rw [hup]
      simp [isUp]
    · intro _ _; rfl
    · intro _ hcf
      rw [hc] at hcf
      exact Bool.noConfusion hcf
    · intro hwf
      rw [hwf] at hw
      exact Bool.noConfusion hw
    · rw [List.count_cons]
      rw [n5, ht1w, hw]
      simp
  · have hc' : s.connected = false := by
      rwa [Bool.not_eq_true] at hc
    have h2 : (stepSup s e).2 = none := by
      rw [hse, if_neg hc]
    have hw : (stepSup s e).1.wasConnected = s.wasConnected := by
      rw [hse, if_neg hc]
    have hcc : (stepSup s e).1.connected = s.connected := by
      rw [hse, if_neg hc]
    refine nshape_cons_of_silent h2 hw hcc ?_ ⟨n1, n2, n3, n4, n5⟩
    by_cases hwq : s.wasConnected = true
    · rw [if_pos hwq, if_pos hwq]
    · rw [if_neg hwq, if_neg hwq]
      by_cases hm : SupEvent.connectOk ∈ es
      · rw [if_pos (hne.mpr hm), if_pos hm]
      · rw [if_neg (fun hmm => hm (hne.mp hmm)), if_neg hm]

theorem nshape_of_inv :
    ∀ (es : List SupEvent) (s : SupState), Inv s → NShape s es := by
  intro es
  induction es with
  | nil =>
    intro s hInv
    refine ⟨List.chain'_nil, ?_, ?_, ?_, ?_⟩
    · intro _ _ h hh; exact absurd hh (by simp [runSup])
    · intro _ _ h hh; exact absurd hh (by simp [runSup])
    · intro _ h hh; exact absurd hh (by simp [runSup])
    · show (0 : Nat) = _
      simp
  | cons e es ih =>
    intro s hInv
    have hInv' : Inv (stepSup s e).1 := stepSup_inv s e hInv
    have hn := ih (stepSup s e).1 hInv'
    obtain ⟨i1, i2, i3⟩ := hInv
    cases e with
    | connectOk =>
      obtain ⟨n1, n2, n3, n4, n5⟩ := hn
      by_cases hc : s.connected = true
      · have hw : s.wasConnected = true := (i1 hc).2
        refine nshape_cons_of_silent ?_ ?_ ?_ ?_ ⟨n1, n2, n3, n4, n5⟩
        · simp [stepSup, hc]
        · simp [stepSup, hc]
        · simp [stepSup, hc]
        · simp [hw]
      · have hc' : s.connected = false := by
          rwa [Bool.not_eq_true] at hc
        have hstep1 : (stepSup s SupEvent.connectOk).1
            = ⟨true, true, false, []⟩ := by
          simp [stepSup, hc']
        have ht1w : (stepSup s SupEvent.connectOk).1.wasConnected = true := by
          rw [hstep1]
        have ht1c : (stepSup s SupEvent.connectOk).1.connected = true := by
          rw [hstep1]
        have hdown : ∀ h, ((runSup (stepSup s SupEvent.connectOk).1 es).2).head?
            = some h → isUp h = false := n2 ht1w ht1c
        have hcout : (runSup (stepSup s SupEvent.connectOk).1 es).2.count
            Notif.started = 0 := by
          rw [n5, ht1w]
          rfl
        by_cases hw : s.wasConnected = true
        · have hl : s.lostNotified = true := i2 hc' hw
          have hstep2 : (stepSup s SupEvent.connectOk).2
              = some Notif.restored := by
            simp [stepSup, hc', hw]
          refine nshape_cons_of_emit hstep2 ?_ n1 ?_ ?_ ?_ ?_
          · intro h hh
            rw [hdown h hh]
            simp [isUp]
          · intro _ hct
            rw [hct] at hc'
            exact Bool.noConfusion hc'
          · intro _ _; rfl
          · intro hwf
            rw [hwf] at hw
            exact Bool.noConfusion hw
          · rw [List.count_cons, hcout, hw]
            simp
        · have hwf : s.wasConnected = false := by
            rwa [Bool.not_eq_true] at hw
          have hl : s.lostNotified = false := i3 hwf
          have hstep2 : (stepSup s SupEvent.connectOk).2
              = some Notif.started := by
            simp [stepSup, hc', hwf, hl]
          refine nshape_cons_of_emit hstep2 ?_ n1 ?_ ?_ ?_ ?_
          · intro h hh
            rw [hdown h hh]
            simp [isUp]
          · intro hwt _
            rw [hwt] at hwf
            exact Bool.noConfusion hwf
          · intro hwt _
            rw [hwt] at hwf
            exact Bool.noConfusion hwf
          · intro _; rfl
          · rw [List.count_cons, hcout, hwf]
            simp
    | connectFail =>
      obtain ⟨n1, n2, n3, n4, n5⟩ := hn
      by_cases hc : s.connected = true
      · refine nshape_cons_of_silent ?_ ?_ ?_ ?_ ⟨n1, n2, n3, n4, n5⟩
        · simp [stepSup, hc]
        · simp [stepSup, hc]
        · simp [stepSup, hc]
        · simp
      · have hc' : s.connected = false := by
          rwa [Bool.not_eq_true] at hc
        by_cases hg : (s.wasConnected && !s.lostNotified) = true
        · rw [Bool.and_eq_true] at hg
          have hlf : s.lostNotified = false := by
            have := hg.2
            rwa [Bool.not_eq_true'] at this
          have hlt : s.lostNotified = true := i2 hc' hg.1
          rw [hlt] at hlf
          exact Bool.noConfusion hlf
        · refine nshape_cons_of_silent ?_ ?_ ?_ ?_ ⟨n1, n2, n3, n4, n5⟩
          · simp [stepSup, hc', hg]
          · simp [stepSup, hc', hg]
          · simp [stepSup, hc', hg]
          · simp
    | healthFail =>
      exact nshape_cons_teardown rfl (by simp) ⟨i1, i2, i3⟩ hn
    | selectErr =>
      exact nshape_cons_teardown rfl (by simp) ⟨i1, i2, i3⟩ hn
    | selectTimeout =>
      obtain ⟨n1, n2, n3, n4, n5⟩ := hn
      refine nshape_cons_of_silent rfl rfl rfl ?_ ⟨n1, n2, n3, n4, n5⟩
      simp
    | readErr =>
      exact nshape_cons_teardown rfl (by simp) ⟨i1, i2, i3⟩ hn
    | readZero =>
      exact nshape_cons_teardown rfl (by simp) ⟨i1, i2, i3⟩ hn
    | dataChunk b =>
      obtain ⟨n1, n2, n3, n4, n5⟩ := hn
      by_cases hc : s.connected = true
      · refine nshape_cons_of_silent ?_ ?_ ?_ ?_ ⟨n1, n2, n3, n4, n5⟩
        · simp [stepSup, hc]
        · simp [stepSup, hc]
        · simp [stepSup, hc]
        · simp
      · refine nshape_cons_of_silent ?_ ?_ ?_ ?_ ⟨n1, n2, n3, n4, n5⟩
        · simp [stepSup, hc]
        · simp [stepSup, hc]
        · simp [stepSup, hc]
        · simp

/-- C2: over every event sequence driving the supervisor loop from its
initial state, the emitted notification sequence starts with `started`
(when nonempty), contains `started` exactly once iff a successful
connect occurs (the first-ever one), and strictly alternates between
up events (`started`/`restored`) and down events (`lost`/`failed`):
in particular there are never two consecutive `lost`/`failed`
notifications without an intervening `restored`, and each disconnection
episode contributes exactly one down event followed by exactly one up
event when reconnection succeeds. -/
theorem notification_episodes (es : List SupEvent) :
    List.Chain' (fun a b => isUp a ≠ isUp b) (runSup initState es).2 ∧
    ((runSup initState es).2 = [] ∨
      ((runSup initState es).2).head? = some Notif.started) ∧
    ((runSup initState es).2.count Notif.started
      = if SupEvent.connectOk ∈ es then 1 else 0) := by
  obtain ⟨n1, _, _, n4, n5⟩ := nshape_of_inv es initState init_inv
  refine ⟨n1, ?_, ?_⟩
  · cases hh : ((runSup initState es).2).head? with
    | none =>
      left
      exact List.head?_eq_none_iff.mp hh
    | some v =>
      right
      rw [n4 rfl v hh]
  · rw [n5]
    rfl

/-- Linux errno value EAGAIN (= EWOULDBLOCK on Linux). -/
def EAGAIN : Nat := 11

/-- Linux errno value EWOULDBLOCK. -/
def EWOULDBLOCK : Nat := 11

/-- Linux errno value EPIPE. -/
def EPIPE : Nat := 32

/-- Linux errno value ECONNRESET. -/
def ECONNRESET : Nat := 104

/-- Linux errno value ENOTCONN. -/
def ENOTCONN : Nat := 107

/-- The OS-visible state of the connected TCP socket as seen by the
liveness probe: the application bytes queued but not yet read, whether
the peer has performed an orderly close, and whether a hard socket
error (broken pipe / reset) is pending. -/
structure SockState where
  pending : List Nat
  peerClosed : Bool
  soError : Bool
deriving DecidableEq

/-- Model of `send(fd, &test_byte, 0, MSG_NOSIGNAL)`
(ais_forwarder.cpp:182): a zero-length probe send succeeds on a
healthy socket and fails with a broken-pipe-class errno when a hard
error is pending.  Returns (result, errno). -/
def sendZeroProbe (s : SockState) : Int × Nat :=
  if s.soError then (-1, EPIPE) else (0, 0)

/-- Model of `getsockopt(fd, SOL_SOCKET, SO_ERROR, ...)`
(ais_forwarder.cpp:193): returns (call result, pending error value). -/
def getsockoptSoError (s : SockState) : Int × Nat :=
  (0, if s.soError then 1 else 0)

/-- Model of `recv(fd, &peek_byte, 1, MSG_PEEK | MSG_DONTWAIT)`
(ais_forwarder.cpp:201): reports one available byte, 0 on orderly
close with nothing queued, or -1 with EAGAIN when nothing is available
on a live connection.  Because of MSG_PEEK the returned socket state
has the same queue: nothing is removed. -/
def recvPeek1 (s : SockState) : (Int × Nat) × SockState :=
  match s.pending with
  | _ :: _ => ((1, 0), s)
  | [] => if s.peerClosed then ((0, 0), s) else ((-1, EAGAIN), s)

/-- Transcription of `is_connection_alive` (ais_forwarder.cpp:178-216)
over the socket model, returning the verdict together with the socket
state after the probe. -/
def is_connection_alive (s : SockState) : Bool × SockState :=
  let sr := sendZeroProbe s
  if sr.1 < 0 ∧ (sr.2 = EPIPE ∨ sr.2 = ECONNRESET ∨ sr.2 = ENOTCONN) then
    (false, s)
  else
    let so := getsockoptSoError s
    if so.1 ≠ 0 ∨ so.2 ≠ 0 then (false, s)
    else
      let pk := recvPeek1 s
      if pk.1.1 = 0 then (false, pk.2)
      else if pk.1.1 < 0 then
        if pk.1.2 = EAGAIN ∨ pk.1.2 = EWOULDBLOCK then (true, pk.2)
        else if pk.1.2 = ECONNRESET ∨ pk.1.2 = ENOTCONN ∨ pk.1.2 = EPIPE then
          (false, pk.2)
        else (true, pk.2)
      else (true, pk.2)

/-- C7: the liveness probe never consumes application data (the socket
state, in particular the queued bytes, is unchanged — the only read
uses MSG_PEEK), reports healthy when no data is currently available on
a live connection (the EAGAIN/EWOULDBLOCK case), and reports unhealthy
when the peer has closed and the queue is drained (peek returns zero)
or when a socket error is pending. -/
theorem liveness_probe_correct (s : SockState) :
    ((is_connection_alive s).2 = s) ∧
    (s.soError = false → s.pending = [] → s.peerClosed = false →
      (is_connection_alive s).1 = true) ∧
    (s.pending = [] → s.peerClosed = true →
      (is_connection_alive s).1 = false) ∧
    (s.soError = true → (is_connection_alive s).1 = false) := by
  obtain ⟨p, pc, se⟩ := s
  cases se <;> cases pc <;> cases p <;>
    simp [is_connection_alive, sendZeroProbe, getsockoptSoError, recvPeek1,
      EAGAIN, EWOULDBLOCK, EPIPE, ECONNRESET, ENOTCONN]

theorem liveness_probe_correct_witness :
    (is_connection_alive ⟨[], false, false⟩).1 = true :=
  (liveness_probe_correct ⟨[], false, false⟩).2.1 rfl rfl rfl

/-- The configuration record of the program with its compiled-in
defaults (ais_forwarder.cpp:47-54). -/
structure Config where
  ais_ip : String
  ais_port : Int
  mt_ip : String
  mt_port : Int
  notification_user : String
deriving DecidableEq

/-- The default configuration values (ais_forwarder.cpp:48-52). -/
def defaultConfig : Config :=
  ⟨"192.168.50.37", 39150, "5.9.207.224", 10170, "david"⟩

/-- The values one configuration source (command line options,
environment variables) supplies; `none` means the source does not set
that field. -/
structure ConfigOverlay where
  ais_ip : Option String
  ais_port : Option Int
  mt_ip : Option String
  mt_port : Option Int
  notification_user : Option String
deriving DecidableEq

/-- The overlay of a source that sets nothing. -/
def emptyOverlay : ConfigOverlay := ⟨none, none, none, none, none⟩

/-- Apply one source on top of a configuration: every field the source
sets overwrites the current value, every other field is kept.  This is
the common shape of the getopt loop (ais_forwarder.cpp:322-351, each
present option assigns its field) and of `load_env_config`
(lines 91-109, each set variable assigns its field). -/
def applyOverlay (c : Config) (o : ConfigOverlay) : Config :=
  ⟨o.ais_ip.getD c.ais_ip, o.ais_port.getD c.ais_port,
   o.mt_ip.getD c.mt_ip, o.mt_port.getD c.mt_port,
   o.notification_user.getD c.notification_user⟩

/-- One recognised key=value line of a configuration file after
parsing (numeric fields already run through `std::stoi`); `other`
stands for a line whose key matches no known field and is skipped by
the if/else-if chain of `load_config_file` (ais_forwarder.cpp:80-84). -/
inductive FileEntry
  | ais_ip (v : String)
  | ais_port (v : Int)
  | mt_ip (v : String)
  | mt_port (v : Int)
  | notification_user (v : String)
  | other
deriving DecidableEq

/-- Apply one parsed configuration-file line (ais_forwarder.cpp:80-84). -/
def applyFileEntry (c : Config) : FileEntry → Config
  | .ais_ip v => { c with ais_ip := v }
  | .ais_port v => { c with ais_port := v }
  | .mt_ip v => { c with mt_ip := v }
  | .mt_port v => { c with mt_port := v }
  | .notification_user v => { c with notification_user := v }
  | .other => c

/-- `load_config_file` (ais_forwarder.cpp:57-88) over the parsed
lines: entries are applied in file order onto the current
configuration. -/
def load_config_file (entries : List FileEntry) (c : Config) : Config :=
  entries.foldl applyFileEntry c

/-- `load_env_config` (ais_forwarder.cpp:91-109): each set environment
variable overwrites its field of the current configuration. -/
def load_env_config (env : ConfigOverlay) (c : Config) : Config :=
  applyOverlay c env

/-- The configuration resolution main actually performs
(ais_forwarder.cpp:303-372): the getopt loop writes the command-line
values into the configuration first (over the defaults), then the
configuration file — when one opens — is applied over that, then the
environment is applied over that. -/
def resolveConfig (cli : ConfigOverlay) (fileEntries : Option (List FileEntry))
    (env : ConfigOverlay) : Config :=
  let c1 := applyOverlay defaultConfig cli
  let c2 := match fileEntries with
    | some es => load_config_file es c1
    | none => c1
  load_env_config env c2

/-- The resolution the claim (and the program's own usage text,
ais_forwarder.cpp:134 "Priority: Command line > Environment > Config
file > Defaults", and its changelog) describes: each field takes the
value of the highest-priority source that sets it, priority descending
command line, environment, file, defaults.  Stated from the claim's
words for comparison with `resolveConfig`, the code's actual order. -/
def claimedResolve (cli : ConfigOverlay) (fileEntries : Option (List FileEntry))
    (env : ConfigOverlay) : Config :=
  let c1 := match fileEntries with
    | some es => load_config_file es defaultConfig
    | none => defaultConfig
  applyOverlay (applyOverlay c1 env) cli

/-- C3 (code bug): the code applies the configuration file and the
environment AFTER the getopt loop, so both override command-line
options, contradicting the claimed (and self-documented) priority.
With `--ais-port 1000` on the command line and `AIS_PORT=2000` in the
environment the code resolves 2000 where the claimed priority gives
1000; with `--mt-port 1` on the command line and `mt_port=3` in a
config file the code resolves 3 where the claimed priority gives 1. -/
theorem config_priority_bug :
    (resolveConfig ⟨none, some 1000, none, none, none⟩ none
        ⟨none, some 2000, none, none, none⟩).ais_port = 2000 ∧
    (claimedResolve ⟨none, some 1000, none, none, none⟩ none
        ⟨none, some 2000, none, none, none⟩).ais_port = 1000 ∧
    (resolveConfig ⟨none, some 1000, none, none, none⟩ none
        ⟨none, some 2000, none, none, none⟩).ais_port ≠
      (claimedResolve ⟨none, some 1000, none, none, none⟩ none
        ⟨none, some 2000, none, none, none⟩).ais_port ∧
    (resolveConfig ⟨none, none, none, some 1, none⟩
        (some [FileEntry.mt_port 3]) emptyOverlay).mt_port = 3 ∧
    (claimedResolve ⟨none, none, none, some 1, none⟩
        (some [FileEntry.mt_port 3]) emptyOverlay).mt_port = 1 := by
  refine ⟨rfl, rfl, by decide, rfl, rfl⟩

end AisForwarder
